import Mathlib

/-!
Verification of the Dōbutsu Shōgi Z3 bounded-model-checking core.

This file shallowly embeds the constraint generators of
`tsume_shogi_solver/game_state.py` and `tsume_shogi_solver/game_rules.py`
and the problem drivers of `dobutsu_shogi_z3/solvers/` into Lean.

A Z3 model is represented by a `ZAssign`: one Lean value per Z3 variable
family (integers become `Int`, booleans become `Bool`).  Each Python
function that adds constraints to the solver becomes a `Prop`-valued
predicate on `ZAssign` stating that the assignment satisfies exactly the
constraints that function emits.  The drivers, which call the external
SMT backend, are embedded as pure functions taking the backend's answer
(`CheckResult`) as an explicit argument.
-/

set_option synthInstance.maxSize 100000
set_option maxHeartbeats 1000000

namespace DobutsuShogi

/-- Board/piece constants from `GameState` (`ROWS = 4`, `COLS = 3`,
`N_PIECES = 8`). -/
abbrev ROWS : Int := 4

/-- Number of columns on the board. -/
abbrev COLS : Int := 3

/-- Number of pieces (4 per player). -/
abbrev N_PIECES : Nat := 8

/-- Value of `PieceType.LION`. -/
abbrev lionVal : Int := 0

/-- Value of `PieceType.GIRAFFE`. -/
abbrev giraffeVal : Int := 1

/-- Value of `PieceType.ELEPHANT`. -/
abbrev elephantVal : Int := 2

/-- Value of `PieceType.CHICK`. -/
abbrev chickVal : Int := 3

/-- Value of `PieceType.HEN`. -/
abbrev henVal : Int := 4

/-- The two players of the `Player` enum. -/
inductive Player where
  | sente
  | gote
deriving DecidableEq, Repr

/-- Numeric index of a player (`Player.SENTE.value = 0`,
`Player.GOTE.value = 1`) as a natural number. -/
def Player.idx : Player → Nat
  | .sente => 0
  | .gote => 1

/-- Numeric index of a player as an integer, for comparison with owner
variables. -/
def Player.val (w : Player) : Int := w.idx

/-- An assignment to every Z3 variable the encoder allocates
(`GameState._create_variables`): static per-piece type, dynamic
per-(time, piece) attributes, and per-time move-slot fields. -/
structure ZAssign where
  piece_type : Nat → Int
  piece_owner : Nat → Nat → Int
  piece_row : Nat → Nat → Int
  piece_col : Nat → Nat → Int
  piece_captured : Nat → Nat → Bool
  piece_promoted : Nat → Nat → Bool
  piece_in_hand_of : Nat → Nat → Int
  move_piece_id : Nat → Int
  move_from_row : Nat → Int
  move_from_col : Nat → Int
  move_to_row : Nat → Int
  move_to_col : Nat → Int
  move_is_drop : Nat → Bool
  move_captures : Nat → Int

/-- Domain constraints emitted by `GameState.get_basic_constraints`:
piece-type range, owner/row/col/hand ranges at every `t ∈ {0..N}`, and
move-field ranges at every `t ∈ {0..N-1}`. -/
abbrev basicDomainOk (A : ZAssign) (N : Nat) : Prop :=
  (∀ p < N_PIECES, 0 ≤ A.piece_type p ∧ A.piece_type p ≤ 4) ∧
  (∀ t ≤ N, ∀ p < N_PIECES,
    (0 ≤ A.piece_owner t p ∧ A.piece_owner t p ≤ 1) ∧
    (1 ≤ A.piece_row t p ∧ A.piece_row t p ≤ ROWS) ∧
    (1 ≤ A.piece_col t p ∧ A.piece_col t p ≤ COLS) ∧
    (-1 ≤ A.piece_in_hand_of t p ∧ A.piece_in_hand_of t p ≤ 1)) ∧
  (∀ t < N,
    (0 ≤ A.move_piece_id t ∧ A.move_piece_id t < (N_PIECES : Int)) ∧
    (0 ≤ A.move_from_row t ∧ A.move_from_row t ≤ ROWS) ∧
    (0 ≤ A.move_from_col t ∧ A.move_from_col t ≤ COLS) ∧
    (1 ≤ A.move_to_row t ∧ A.move_to_row t ≤ ROWS) ∧
    (1 ≤ A.move_to_col t ∧ A.move_to_col t ≤ COLS) ∧
    (-1 ≤ A.move_captures t ∧ A.move_captures t < (N_PIECES : Int)))

/-- An initial-piece descriptor (`PieceState` dataclass): id, type,
owner, row, col. -/
structure PieceStateD where
  piece_id : Nat
  piece_type : Int
  piece_owner : Int
  row : Int
  col : Int
deriving DecidableEq, Repr

/-- Constraints emitted by `GameState.set_initial_position`: for each
descriptor, pin the static type and the full `t = 0` state
(`captured = False`, `promoted = False`, `in_hand = -1`, and the
descriptor's owner/row/col). -/
abbrev initialPositionOk (A : ZAssign) (init : List PieceStateD) : Prop :=
  ∀ ps ∈ init,
    A.piece_type ps.piece_id = ps.piece_type ∧
    A.piece_owner 0 ps.piece_id = ps.piece_owner ∧
    A.piece_row 0 ps.piece_id = ps.row ∧
    A.piece_col 0 ps.piece_id = ps.col ∧
    A.piece_captured 0 ps.piece_id = false ∧
    A.piece_promoted 0 ps.piece_id = false ∧
    A.piece_in_hand_of 0 ps.piece_id = -1

/-- `GameRules._no_overlap_constraints`: two non-captured pieces never
share a square, at every `t ∈ {0..N}`. -/
abbrev noOverlapOk (A : ZAssign) (N : Nat) : Prop :=
  ∀ t ≤ N, ∀ p1 < N_PIECES, ∀ p2 < N_PIECES, p1 < p2 →
    (A.piece_captured t p1 = false ∧ A.piece_captured t p2 = false) →
    (A.piece_row t p1 ≠ A.piece_row t p2 ∨ A.piece_col t p1 ≠ A.piece_col t p2)

/-- `GameRules._capture_hand_constraints`: `captured == (in_hand >= 0)`. -/
abbrev captureHandOk (A : ZAssign) (N : Nat) : Prop :=
  ∀ t ≤ N, ∀ p < N_PIECES,
    (A.piece_captured t p = true ↔ 0 ≤ A.piece_in_hand_of t p)

/-- `GameRules._promotion_constraints`: only Chicks can be promoted. -/
abbrev promotionOnlyChickOk (A : ZAssign) (N : Nat) : Prop :=
  ∀ t ≤ N, ∀ p < N_PIECES,
    A.piece_promoted t p = true → A.piece_type p = chickVal

/-- `GameRules.basic_constraints`: overlap + hand + promotion
invariants. -/
abbrev rulesBasicOk (A : ZAssign) (N : Nat) : Prop :=
  noOverlapOk A N ∧ captureHandOk A N ∧ promotionOnlyChickOk A N

/-- `GameRules._player_ownership_constraints`: the moving piece belongs
to the player on turn (`current_player = t % 2`). -/
abbrev ownershipOk (A : ZAssign) (N : Nat) : Prop :=
  ∀ t < N, ∀ p < N_PIECES,
    A.move_piece_id t = (p : Int) → A.piece_owner t p = ((t % 2 : Nat) : Int)

/-- `GameRules._square_empty_or_opponent`: every non-captured piece on
the given square belongs to the opponent of `cur`. -/
abbrev squareEmptyOrOpponent (A : ZAssign) (t : Nat) (row col cur : Int) : Prop :=
  ∀ p < N_PIECES,
    (A.piece_captured t p = false ∧ A.piece_row t p = row ∧ A.piece_col t p = col) →
    A.piece_owner t p ≠ cur

/-- `GameRules._valid_move_pattern`: per-kind movement geometry over the
deltas of the move at slot `t`, using the effective type
(`HEN` when promoted). -/
abbrev validMovePattern (A : ZAssign) (t : Nat) (p : Nat) : Prop :=
  let dr := A.move_to_row t - A.move_from_row t
  let dc := A.move_to_col t - A.move_from_col t
  let et := if A.piece_promoted t p then henVal else A.piece_type p
  (et = lionVal → |dr| ≤ 1 ∧ |dc| ≤ 1 ∧ (dr ≠ 0 ∨ dc ≠ 0)) ∧
  (et = giraffeVal →
    (dr = 0 ∧ (dc = 1 ∨ dc = -1)) ∨ (dc = 0 ∧ (dr = 1 ∨ dr = -1))) ∧
  (et = elephantVal → |dr| = 1 ∧ |dc| = 1) ∧
  (et = chickVal →
    (if A.piece_owner t p = 0 then dr = 1 else dr = -1) ∧ dc = 0) ∧
  (et = henVal →
    (dr = 0 ∧ (dc = 1 ∨ dc = -1)) ∨ (dc = 0 ∧ (dr = 1 ∨ dr = -1)) ∨
    ((if A.piece_owner t p = 0 then dr = 1 else dr = -1) ∧ (dc = 1 ∨ dc = -1)))

/-- `GameRules._move_type_constraints`: for each candidate mover `p`,
the drop branch or the regular-move branch of the `If`. -/
abbrev moveTypeOk (A : ZAssign) (N : Nat) : Prop :=
  ∀ t < N, ∀ p < N_PIECES, A.move_piece_id t = (p : Int) →
    (A.move_is_drop t = true →
      A.piece_captured t p = true ∧
      A.piece_in_hand_of t p = ((t % 2 : Nat) : Int) ∧
      A.move_from_row t = 0 ∧
      A.move_from_col t = 0 ∧
      A.move_captures t = -1 ∧
      squareEmptyOrOpponent A t (A.move_to_row t) (A.move_to_col t) ((t % 2 : Nat) : Int)) ∧
    (A.move_is_drop t = false →
      A.piece_captured t p = false ∧
      A.move_from_row t = A.piece_row t p ∧
      A.move_from_col t = A.piece_col t p ∧
      validMovePattern A t p ∧
      squareEmptyOrOpponent A t (A.move_to_row t) (A.move_to_col t) ((t % 2 : Nat) : Int))

/-- Moving-piece branch of `GameRules._move_effects_constraints`:
position becomes the destination, piece stays on board, owner is kept,
and a Chick reaching its owner's far rank is promoted (else promotion
is copied). -/
abbrev moverEffects (A : ZAssign) (t p : Nat) : Prop :=
  A.piece_row (t + 1) p = A.move_to_row t ∧
  A.piece_col (t + 1) p = A.move_to_col t ∧
  A.piece_captured (t + 1) p = false ∧
  A.piece_in_hand_of (t + 1) p = -1 ∧
  A.piece_owner (t + 1) p = A.piece_owner t p ∧
  ((A.piece_type p = chickVal ∧
      ((A.piece_owner t p = 0 ∧ A.move_to_row t = ROWS) ∨
        (A.piece_owner t p = 1 ∧ A.move_to_row t = 1))) →
    A.piece_promoted (t + 1) p = true) ∧
  (¬(A.piece_type p = chickVal ∧
      ((A.piece_owner t p = 0 ∧ A.move_to_row t = ROWS) ∨
        (A.piece_owner t p = 1 ∧ A.move_to_row t = 1))) →
    A.piece_promoted (t + 1) p = A.piece_promoted t p)

/-- Captured-piece branch of `GameRules._move_effects_constraints`:
captured, held and owned by the capturing player `t % 2`, demoted,
position copied. -/
abbrev capturedEffects (A : ZAssign) (t p : Nat) : Prop :=
  A.piece_captured (t + 1) p = true ∧
  A.piece_in_hand_of (t + 1) p = ((t % 2 : Nat) : Int) ∧
  A.piece_promoted (t + 1) p = false ∧
  A.piece_owner (t + 1) p = ((t % 2 : Nat) : Int) ∧
  A.piece_row (t + 1) p = A.piece_row t p ∧
  A.piece_col (t + 1) p = A.piece_col t p

/-- Unaffected-piece branch of `GameRules._move_effects_constraints`:
every attribute is copied from `t` to `t + 1`. -/
abbrev frameEffects (A : ZAssign) (t p : Nat) : Prop :=
  A.piece_row (t + 1) p = A.piece_row t p ∧
  A.piece_col (t + 1) p = A.piece_col t p ∧
  A.piece_captured (t + 1) p = A.piece_captured t p ∧
  A.piece_promoted (t + 1) p = A.piece_promoted t p ∧
  A.piece_in_hand_of (t + 1) p = A.piece_in_hand_of t p ∧
  A.piece_owner (t + 1) p = A.piece_owner t p

/-- Next-state schema of `GameRules._move_effects_constraints`: the
`If(is_moving, mover, If(is_captured, captured, frame))` cascade, where
`is_moving` is `move.piece_id == p` and `is_captured` is
`move.captures == p ∧ ¬ is_drop`. -/
abbrev moveEffectsOk (A : ZAssign) (N : Nat) : Prop :=
  ∀ t < N, ∀ p < N_PIECES,
    (A.move_piece_id t = (p : Int) → moverEffects A t p) ∧
    (A.move_piece_id t ≠ (p : Int) →
      (A.move_captures t = (p : Int) ∧ A.move_is_drop t = false) → capturedEffects A t p) ∧
    (A.move_piece_id t ≠ (p : Int) →
      ¬(A.move_captures t = (p : Int) ∧ A.move_is_drop t = false) → frameEffects A t p)

/-- Hypothesis of each implication in
`GameRules._capture_logic_constraints`: piece `p` is a capturable
victim of the move at `t` (on board, not the mover, on the destination
square, owned by the opponent). -/
abbrev captureCandidate (A : ZAssign) (t : Nat) (p : Nat) : Prop :=
  A.piece_captured t p = false ∧
  (p : Int) ≠ A.move_piece_id t ∧
  A.piece_row t p = A.move_to_row t ∧
  A.piece_col t p = A.move_to_col t ∧
  A.piece_owner t p ≠ ((t % 2 : Nat) : Int)

/-- `GameRules._capture_logic_constraints`: every capture candidate
forces `move.captures` to its id, and if there is no candidate then
`move.captures = -1`. -/
abbrev captureLogicOk (A : ZAssign) (N : Nat) : Prop :=
  ∀ t < N,
    (∀ p < N_PIECES, captureCandidate A t p → A.move_captures t = (p : Int)) ∧
    ((∀ p < N_PIECES, ¬captureCandidate A t p) → A.move_captures t = -1)

/-- `GameRules.movement_constraints`: per time step, the ownership,
move-type, move-effect and capture-logic constraints. -/
abbrev movementOk (A : ZAssign) (N : Nat) : Prop :=
  ownershipOk A N ∧ moveTypeOk A N ∧ moveEffectsOk A N ∧ captureLogicOk A N

/-- The whole constraint system assembled by `create_base_solver`:
domain constraints, initial-position pinning, basic rule invariants,
and movement constraints. -/
abbrev baseConstraintsOk (A : ZAssign) (N : Nat) (init : List PieceStateD) : Prop :=
  basicDomainOk A N ∧ initialPositionOk A init ∧ rulesBasicOk A N ∧ movementOk A N

/-- `GameRules.victory_conditions`: player `w` has won at time `t` iff
some opponent Lion is captured, or some own Lion is on board on `w`'s
far rank (`ROWS` for Sente, row 1 for Gote). -/
abbrev victoryOk (A : ZAssign) (t : Nat) (w : Player) : Prop :=
  ∃ p < N_PIECES,
    (A.piece_type p = lionVal ∧ A.piece_owner t p ≠ w.val ∧
      A.piece_captured t p = true) ∨
    (A.piece_type p = lionVal ∧ A.piece_owner t p = w.val ∧
      A.piece_captured t p = false ∧
      A.piece_row t p = (if w = Player.sente then ROWS else 1))

/-- Board position value object (`core.Position`). -/
structure Position where
  row : Int
  col : Int
deriving DecidableEq, Repr

/-- Move value object (`core.MoveData`) as decoded from a model. -/
structure MoveData where
  move_number : Nat
  player : String
  piece_id : Nat
  is_drop : Bool
  from_ : Position
  to_ : Position
  captures : Int
  piece_type : Int
deriving DecidableEq, Repr

/-- One decoded move record, as built by `extract_moves` in
`solvers/utils.py` from the move-slot variables at time `t`. -/
def extractMove (A : ZAssign) (t : Nat) : MoveData :=
  { move_number := t
    player := if t % 2 = 0 then "Sente" else "Gote"
    piece_id := (A.move_piece_id t).toNat
    is_drop := A.move_is_drop t
    from_ := ⟨A.move_from_row t, A.move_from_col t⟩
    to_ := ⟨A.move_to_row t, A.move_to_col t⟩
    captures := A.move_captures t
    piece_type := A.piece_type (A.move_piece_id t).toNat }

/-- `extract_moves(model, state, n_moves)`: decode the first `n` move
slots of the model. -/
def extractMoves (A : ZAssign) (n : Nat) : List MoveData :=
  (List.range n).map (extractMove A)

/-- Result of `solver.check()`: the external SMT backend either
produces a model, reports unsatisfiability, or fails (unknown /
timeout).  The drivers are embedded as functions of this answer. -/
inductive CheckResult where
  | sat (model : ZAssign)
  | unsat
  | unknown

/-- `CheckmateProblem` dataclass. -/
structure CheckmateProblem where
  initial_state : List PieceStateD
  winning_player : Player
  max_moves : Nat

/-- `CheckmateSolution` dataclass. -/
structure CheckmateSolution where
  moves : List MoveData
  winning_player : Player
  mate_in : Nat
deriving DecidableEq

/-- `ReachabilityProblem` dataclass. -/
structure ReachabilityProblem where
  initial_state : List PieceStateD
  piece_id : Nat
  target : Position
  player : Player
  max_moves : Nat

/-- `ReachabilitySolution` dataclass. -/
structure ReachabilitySolution where
  moves : List MoveData
  piece_id : Nat
  reached : Position
deriving DecidableEq

/-- `TsumeProblem` dataclass; the caller-supplied Z3 constraints become
predicates on the assignment. -/
structure TsumeProblem where
  initial_state : List PieceStateD
  constraints : List (ZAssign → Bool)
  max_moves : Nat

/-- `TsumeSolution` dataclass. -/
structure TsumeSolution where
  moves : List MoveData
  satisfied_constraints : List (ZAssign → Bool)

/-- Condition tested by `ReachabilitySolver.solve` both in the asserted
disjunction and in the model scan: piece at the target square, owned by
the target player, not captured, at time `t`. -/
def reachTarget (A : ZAssign) (prob : ReachabilityProblem) (t : Nat) : Bool :=
  (A.piece_row t prob.piece_id == prob.target.row) &&
  (A.piece_col t prob.piece_id == prob.target.col) &&
  (A.piece_owner t prob.piece_id == prob.player.val) &&
  (A.piece_captured t prob.piece_id == false)

/-- Linear scan `for _t in range(...): if f(_t): return _t`, starting at
`start` with `fuel` iterations left. -/
def findEarliest (f : Nat → Bool) : Nat → Nat → Option Nat
  | _, 0 => none
  | start, fuel + 1 => if f start then some start else findEarliest f (start + 1) fuel

/-- Formula assembled by `ReachabilitySolver.solve`: the common base
constraints plus the disjunction that the target condition holds at
some `t ∈ {0..N}`. -/
abbrev reachabilityFormula (prob : ReachabilityProblem) (A : ZAssign) : Prop :=
  baseConstraintsOk A prob.max_moves prob.initial_state ∧
  ∃ t ≤ prob.max_moves, reachTarget A prob t = true

/-- `ReachabilitySolver.solve`, with the backend's answer made an
explicit argument.  Rejects `max_moves ≤ 0`; on `sat` scans for the
earliest time the target condition holds in the model and returns the
moves up to that time. -/
def reachabilitySolve (prob : ReachabilityProblem) (check : CheckResult) :
    Option ReachabilitySolution :=
  if prob.max_moves = 0 then none
  else
    match check with
    | .sat m =>
      match findEarliest (reachTarget m prob) 0 (prob.max_moves + 1) with
      | some k => some ⟨extractMoves m k, prob.piece_id, prob.target⟩
      | none => none
    | _ => none

/-- Formula assembled by `CheckmateSolver.solve`: base constraints, the
victory predicate for the winner at `t = N`, and its negation at every
`t < N`. -/
abbrev checkmateFormula (prob : CheckmateProblem) (A : ZAssign) : Prop :=
  baseConstraintsOk A prob.max_moves prob.initial_state ∧
  victoryOk A prob.max_moves prob.winning_player ∧
  ∀ t < prob.max_moves, ¬victoryOk A t prob.winning_player

/-- `CheckmateSolver.solve`, with the backend's answer made an explicit
argument.  Rejects `max_moves ≤ 0` and a parity mismatch
(`(N - 1) % 2 ≠ winner index`) before the backend is consulted; on
`sat` returns all `N` moves with `mate_in = N`. -/
def checkmateSolve (prob : CheckmateProblem) (check : CheckResult) :
    Option CheckmateSolution :=
  if prob.max_moves = 0 then none
  else if (prob.max_moves - 1) % 2 ≠ prob.winning_player.idx then none
  else
    match check with
    | .sat m =>
      some ⟨extractMoves m prob.max_moves, prob.winning_player, prob.max_moves⟩
    | _ => none

/-- `TsumeSolver.solve`, with the backend's answer made an explicit
argument.  Rejects `max_moves ≤ 0`; on `sat` returns all `N` moves and
echoes the accepted constraints. -/
def tsumeSolve (prob : TsumeProblem) (check : CheckResult) : Option TsumeSolution :=
  if prob.max_moves = 0 then none
  else
    match check with
    | .sat m => some ⟨extractMoves m prob.max_moves, prob.constraints⟩
    | _ => none

/-- Loop of `ReachabilitySolver.find_shortest_path`: try horizons
`n, n + 1, ...` (`fuel` of them) and return the first driver success. -/
def findShortestPathLoop (solveAt : Nat → Option ReachabilitySolution) :
    Nat → Nat → Option ReachabilitySolution
  | _, 0 => none
  | n, fuel + 1 =>
    match solveAt n with
    | some s => some s
    | none => findShortestPathLoop solveAt (n + 1) fuel

/-- `ReachabilitySolver.find_shortest_path`: re-invoke the driver with
`n = 1, 2, ..., max_moves`, stopping at the first success.  `solveAt n`
stands for `self.solve(problem with max_moves := n)`. -/
def findShortestPath (solveAt : Nat → Option ReachabilitySolution) (maxMoves : Nat) :
    Option ReachabilitySolution :=
  findShortestPathLoop solveAt 1 maxMoves

/-- Loop of `CheckmateSolver.find_shortest_mate`: try horizons
`n, n + 2, ...` while they stay `≤ maxSearch`, returning the first
driver success. -/
def findShortestMateLoop (solveAt : Nat → Option CheckmateSolution) (maxSearch : Nat) :
    Nat → Nat → Option CheckmateSolution
  | _, 0 => none
  | n, fuel + 1 =>
    if n ≤ maxSearch then
      match solveAt n with
      | some s => some s
      | none => findShortestMateLoop solveAt maxSearch (n + 2) fuel
    else none

/-- `CheckmateSolver.find_shortest_mate`: caps the search at
`min(max_moves, 15)`, starts at 1 for Sente and 2 for Gote, and steps
by 2 (skipping wrong-parity horizons).  `solveAt n` stands for
`self.solve(problem with max_moves := n)`. -/
def findShortestMate (solveAt : Nat → Option CheckmateSolution) (maxMoves : Nat)
    (w : Player) : Option CheckmateSolution :=
  let maxSearch := min maxMoves 15
  let start := if w = Player.sente then 1 else 2
  findShortestMateLoop solveAt maxSearch start (maxSearch + 1)

/-- `DEFAULT_INITIAL_SETUP`: the standard Dōbutsu Shōgi starting
position (Sente: Elephant(1,1), Lion(1,2), Giraffe(1,3), Chick(2,2);
Gote: Giraffe(4,1), Lion(4,2), Elephant(4,3), Chick(3,2)). -/
def defaultSetupD : List PieceStateD :=
  [⟨0, elephantVal, 0, 1, 1⟩, ⟨1, lionVal, 0, 1, 2⟩, ⟨2, giraffeVal, 0, 1, 3⟩,
    ⟨3, chickVal, 0, 2, 2⟩, ⟨4, giraffeVal, 1, 4, 1⟩, ⟨5, lionVal, 1, 4, 2⟩,
    ⟨6, elephantVal, 1, 4, 3⟩, ⟨7, chickVal, 1, 3, 2⟩]

/-- Static piece types of the default setup, as a lookup function. -/
def defaultTypes : Nat → Int
  | 0 => elephantVal
  | 1 => lionVal
  | 2 => giraffeVal
  | 3 => chickVal
  | 4 => giraffeVal
  | 5 => lionVal
  | 6 => elephantVal
  | 7 => chickVal
  | _ => 0

/-- Columns of the default setup (constant throughout the sample
plays used below). -/
def defaultCols : Nat → Int
  | 0 => 1
  | 1 => 2
  | 2 => 3
  | 3 => 2
  | 4 => 1
  | 5 => 2
  | 6 => 3
  | _ => 2

/-- Initial rows of the default setup. -/
def defaultRows : Nat → Int
  | 0 => 1
  | 1 => 1
  | 2 => 1
  | 3 => 2
  | 4 => 4
  | 5 => 4
  | 6 => 4
  | _ => 3

/-- A concrete satisfying assignment for horizon 1 over the default
setup: move 0 advances Sente's Chick (piece 3) from (2,2) to (3,2),
capturing Gote's Chick (piece 7). -/
def A1 : ZAssign where
  piece_type := defaultTypes
  piece_owner := fun t p => if p < 4 then 0 else if p = 7 ∧ 1 ≤ t then 0 else 1
  piece_row := fun t p => if p = 3 ∧ 1 ≤ t then 3 else defaultRows p
  piece_col := fun _ p => defaultCols p
  piece_captured := fun t p => decide (p = 7 ∧ 1 ≤ t)
  piece_promoted := fun _ _ => false
  piece_in_hand_of := fun t p => if p = 7 ∧ 1 ≤ t then 0 else -1
  move_piece_id := fun _ => 3
  move_from_row := fun _ => 2
  move_from_col := fun _ => 2
  move_to_row := fun _ => 3
  move_to_col := fun _ => 2
  move_is_drop := fun _ => false
  move_captures := fun _ => 7

/-- A concrete satisfying assignment for horizon 1 in which move 0 is a
drop: Sente holds the Chick with id 7 and drops it on the empty square
(3,2).  Sente's own Chick (id 3) stays on (2,2). -/
def A2 : ZAssign where
  piece_type := defaultTypes
  piece_owner := fun _ p => if p < 4 ∨ p = 7 then 0 else 1
  piece_row := fun _ p => defaultRows p
  piece_col := fun _ p => defaultCols p
  piece_captured := fun t p => decide (p = 7 ∧ t = 0)
  piece_promoted := fun _ _ => false
  piece_in_hand_of := fun t p => if p = 7 ∧ t = 0 then 0 else -1
  move_piece_id := fun _ => 7
  move_from_row := fun _ => 0
  move_from_col := fun _ => 0
  move_to_row := fun _ => 3
  move_to_col := fun _ => 2
  move_is_drop := fun _ => true
  move_captures := fun _ => -1

/-- Reachability problem with horizon 0 whose target is already
satisfied by the initial position: Sente's Chick (id 3) standing on its
own starting square (2,2). -/
def probR0 : ReachabilityProblem := ⟨defaultSetupD, 3, ⟨2, 2⟩, Player.sente, 0⟩

/-- Reachability problem with horizon 1: Sente's Chick (id 3) to
(3,2). -/
def probR1 : ReachabilityProblem := ⟨defaultSetupD, 3, ⟨3, 2⟩, Player.sente, 1⟩

/-- Checkmate problem with horizon 1 for Sente (parity admissible). -/
def probC1 : CheckmateProblem := ⟨defaultSetupD, Player.sente, 1⟩

/-- Checkmate problem with horizon 2 for Sente (parity mismatch: Gote
would make the final move). -/
def probC2 : CheckmateProblem := ⟨defaultSetupD, Player.sente, 2⟩

/-- Constraint-satisfaction problem with horizon 1 and no extra
constraints. -/
def probT1 : TsumeProblem := ⟨defaultSetupD, [], 1⟩

/-- Initial-piece list of `examples.py` (`example6_classic_tsume`):
Sente holds a captured Chick, recorded with the off-board sentinel
`row = col = -1`. -/
def tsumePositionD : List PieceStateD :=
  [⟨0, lionVal, 0, 3, 2⟩, ⟨1, giraffeVal, 0, 2, 1⟩, ⟨2, elephantVal, 0, 2, 3⟩,
    ⟨7, chickVal, 0, -1, -1⟩, ⟨4, lionVal, 1, 4, 2⟩]

/-- A checkmate driver over the default setup whose backend reports
`unsat` at every horizon except 17, where it reports a model.  Under
the monotonicity note of the specification this is a possible driver
behaviour (shortest mate exactly 17). -/
def mateAt17 : Nat → Option CheckmateSolution := fun n =>
  checkmateSolve ⟨defaultSetupD, Player.sente, n⟩
    (if n = 17 then CheckResult.sat A1 else CheckResult.unsat)

/-- A successful linear scan returns the earliest index in its window
at which the predicate holds. -/
theorem findEarliest_some_spec (f : Nat → Bool) :
    ∀ fuel start k, findEarliest f start fuel = some k →
      start ≤ k ∧ k < start + fuel ∧ f k = true ∧
        ∀ j, start ≤ j → j < k → f j = false := by
  intro fuel
  induction fuel with
  | zero => intro start k h; simp [findEarliest] at h
  | succ n ih =>
    intro start k h
    rw [findEarliest] at h
    by_cases hf : f start
    · rw [if_pos hf] at h
      obtain rfl : start = k := by injection h
      exact ⟨Nat.le_refl _, by omega, hf, fun j h1 h2 => by omega⟩
    · rw [if_neg hf] at h
      obtain ⟨h1, h2, h3, h4⟩ := ih (start + 1) k h
      refine ⟨by omega, by omega, h3, fun j hj1 hj2 => ?_⟩
      rcases Nat.eq_or_lt_of_le hj1 with rfl | hlt
      · exact Bool.not_eq_true _ ▸ by simpa using hf
      · exact h4 j hlt hj2

/-- If the predicate holds somewhere in the scan window, the linear
scan succeeds. -/
theorem findEarliest_isSome (f : Nat → Bool) :
    ∀ fuel start t, start ≤ t → t < start + fuel → f t = true →
      ∃ k, findEarliest f start fuel = some k := by
  intro fuel
  induction fuel with
  | zero => intro start t h1 h2; omega
  | succ n ih =>
    intro start t h1 h2 h3
    rw [findEarliest]
    by_cases hf : f start
    · exact ⟨start, by rw [if_pos hf]⟩
    · have hts : t ≠ start := fun he => hf (he ▸ h3)
      obtain ⟨k, hk⟩ := ih (start + 1) t (by omega) (by omega) h3
      exact ⟨k, by rw [if_neg hf]; exact hk⟩

/-- The shortest-path loop returns `none` exactly when the driver fails
at every horizon in its window. -/
theorem findShortestPathLoop_none_iff (s : Nat → Option ReachabilitySolution) :
    ∀ fuel n, (findShortestPathLoop s n fuel = none ↔
      ∀ m, n ≤ m → m < n + fuel → s m = none) := by
  intro fuel
  induction fuel with
  | zero => intro n; simp [findShortestPathLoop]; intro m h1 h2; omega
  | succ k ih =>
    intro n
    rw [findShortestPathLoop]
    cases hs : s n with
    | some r =>
      constructor
      · intro h; exact Option.noConfusion h
      · intro hall
        rw [hall n (Nat.le_refl _) (by omega)] at hs
        exact Option.noConfusion hs
    | none =>
      rw [ih (n + 1)]
      constructor
      · intro hall m h1 h2
        rcases Nat.eq_or_lt_of_le h1 with rfl | hlt
        · exact hs
        · exact hall m hlt (by omega)
      · intro hall m h1 h2
        exact hall m (by omega) (by omega)

/-- A successful shortest-path loop returns the driver's answer for the
first succeeding horizon in its window. -/
theorem findShortestPathLoop_some_spec (s : Nat → Option ReachabilitySolution) :
    ∀ fuel n r, findShortestPathLoop s n fuel = some r →
      ∃ m, n ≤ m ∧ m < n + fuel ∧ s m = some r ∧
        ∀ j, n ≤ j → j < m → s j = none := by
  intro fuel
  induction fuel with
  | zero => intro n r h; simp [findShortestPathLoop] at h
  | succ k ih =>
    intro n r h
    rw [findShortestPathLoop] at h
    cases hs : s n with
    | some q =>
      rw [hs] at h
      obtain rfl : q = r := by injection h
      exact ⟨n, Nat.le_refl _, by omega, hs, fun j h1 h2 => by omega⟩
    | none =>
      rw [hs] at h
      obtain ⟨m, h1, h2, h3, h4⟩ := ih (n + 1) r h
      refine ⟨m, by omega, by omega, h3, fun j hj1 hj2 => ?_⟩
      rcases Nat.eq_or_lt_of_le hj1 with rfl | hlt
      · exact hs
      · exact h4 j hlt hj2

/-- The shortest-mate loop returns `none` exactly when the driver fails
at every horizon of the loop's parity up to the search cap (given
enough fuel). -/
theorem findShortestMateLoop_none_iff (s : Nat → Option CheckmateSolution) (ms : Nat) :
    ∀ fuel n, ms + 1 ≤ fuel + n →
      (findShortestMateLoop s ms n fuel = none ↔
        ∀ m, n ≤ m → m ≤ ms → m % 2 = n % 2 → s m = none) := by
  intro fuel
  induction fuel with
  | zero =>
    intro n hfuel
    simp [findShortestMateLoop]
    intro m h1 h2 h3
    omega
  | succ k ih =>
    intro n hfuel
    rw [findShortestMateLoop]
    by_cases hn : n ≤ ms
    · rw [if_pos hn]
      cases hs : s n with
      | some r =>
        constructor
        · intro h; exact Option.noConfusion h
        · intro hall
          rw [hall n (Nat.le_refl _) hn rfl] at hs
          exact Option.noConfusion hs
      | none =>
        rw [ih (n + 2) (by omega)]
        constructor
        · intro hall m h1 h2 h3
          rcases Nat.lt_or_ge m (n + 2) with hlt | hge
          · have : m = n := by omega
            exact this ▸ hs
          · exact hall m hge h2 (by omega)
        · intro hall m h1 h2 h3
          exact hall m (by omega) h2 (by omega)
    · rw [if_neg hn]
      constructor
      · intro _ m h1 h2 h3; omega
      · intro _; rfl

/-- A successful shortest-mate loop returns the driver's answer for the
first succeeding horizon of the loop's parity. -/
theorem findShortestMateLoop_some_spec (s : Nat → Option CheckmateSolution) (ms : Nat) :
    ∀ fuel n r, findShortestMateLoop s ms n fuel = some r →
      ∃ m, n ≤ m ∧ m ≤ ms ∧ m % 2 = n % 2 ∧ s m = some r ∧
        ∀ j, n ≤ j → j < m → j % 2 = n % 2 → s j = none := by
  intro fuel
  induction fuel with
  | zero => intro n r h; simp [findShortestMateLoop] at h
  | succ k ih =>
    intro n r h
    rw [findShortestMateLoop] at h
    by_cases hn : n ≤ ms
    · rw [if_pos hn] at h
      cases hs : s n with
      | some q =>
        rw [hs] at h
        obtain rfl : q = r := by injection h
        exact ⟨n, Nat.le_refl _, hn, rfl, hs, fun j h1 h2 h3 => by omega⟩
      | none =>
        rw [hs] at h
        obtain ⟨m, h1, h2, h3, h4, h5⟩ := ih (n + 2) r h
        refine ⟨m, by omega, h2, by omega, h4, fun j hj1 hj2 hj3 => ?_⟩
        rcases Nat.lt_or_ge j (n + 2) with hlt | hge
        · have : j = n := by omega
          exact this ▸ hs
        · exact h5 j hge hj2 (by omega)
    · rw [if_neg hn] at h
      cases h

/-- C1: `CheckmateSolver.solve` returns no solution whenever
`(N - 1) % 2 ≠ index(W)` regardless of the backend's answer (the
parity test precedes the backend call), and every returned solution
has exactly `N` moves with `mate_in = N`, decoded from a model in
which `W`'s victory predicate holds at `t = N` and fails at every
`t < N`. -/
theorem checkmate_solve_spec (prob : CheckmateProblem) (b : CheckResult)
    (hb : ∀ m, b = CheckResult.sat m → checkmateFormula prob m) :
    ((prob.max_moves - 1) % 2 ≠ prob.winning_player.idx →
      checkmateSolve prob b = none) ∧
    (∀ sol, checkmateSolve prob b = some sol →
      sol.moves.length = prob.max_moves ∧ sol.mate_in = prob.max_moves ∧
      ∃ m, b = CheckResult.sat m ∧
        victoryOk m prob.max_moves prob.winning_player ∧
        ∀ t < prob.max_moves, ¬victoryOk m t prob.winning_player) := by
  constructor
  · intro hpar
    unfold checkmateSolve
    by_cases h0 : prob.max_moves = 0
    · rw [if_pos h0]
    · rw [if_neg h0, if_pos hpar]
  · intro sol hsol
    unfold checkmateSolve at hsol
    by_cases h0 : prob.max_moves = 0
    · rw [if_pos h0] at hsol; exact Option.noConfusion hsol
    · rw [if_neg h0] at hsol
      by_cases hpar : (prob.max_moves - 1) % 2 ≠ prob.winning_player.idx
      · rw [if_pos hpar] at hsol; exact Option.noConfusion hsol
      · rw [if_neg hpar] at hsol
        cases b with
        | sat m =>
          obtain rfl : (⟨extractMoves m prob.max_moves, prob.winning_player,
              prob.max_moves⟩ : CheckmateSolution) = sol := by injection hsol
          obtain ⟨-, hvic, hnv⟩ := hb m rfl
          exact ⟨by simp [extractMoves], rfl, m, rfl, hvic, hnv⟩
        | unsat => exact Option.noConfusion hsol
        | unknown => exact Option.noConfusion hsol

/-- Witness for C1: a horizon-2 checkmate problem for Sente is a
parity mismatch and is rejected. -/
theorem checkmate_solve_spec_witness :
    checkmateSolve probC2 CheckResult.unsat = none :=
  (checkmate_solve_spec probC2 CheckResult.unsat (fun _ h => nomatch h)).1 (by decide)

/-- C2: on a satisfiable horizon `N ≥ 1`, `ReachabilitySolver.solve`
returns a solution, and every returned solution is obtained by locating
the earliest time `k ∈ {0..N}` at which the model has the piece at the
target square, owned by the target player and not captured, and
returning exactly the first `k` moves (so the move list has length
`k ≤ N`, possibly 0). -/
theorem reachability_solve_spec (prob : ReachabilityProblem) (b : CheckResult)
    (hN : 1 ≤ prob.max_moves)
    (hb : ∀ m, b = CheckResult.sat m → reachabilityFormula prob m) :
    (∀ m, b = CheckResult.sat m → ∃ sol, reachabilitySolve prob b = some sol) ∧
    (∀ sol, reachabilitySolve prob b = some sol →
      ∃ m k, b = CheckResult.sat m ∧ k ≤ prob.max_moves ∧
        reachTarget m prob k = true ∧
        (∀ j < k, reachTarget m prob j = false) ∧
        sol.moves = extractMoves m k ∧ sol.moves.length = k) := by
  constructor
  · intro m hm
    obtain ⟨-, t, ht, htar⟩ := hb m hm
    obtain ⟨k, hk⟩ :=
      findEarliest_isSome (reachTarget m prob) (prob.max_moves + 1) 0 t
        (Nat.zero_le _) (by omega) htar
    refine ⟨⟨extractMoves m k, prob.piece_id, prob.target⟩, ?_⟩
    rw [hm]
    unfold reachabilitySolve
    rw [if_neg (by omega)]
    simp only [hk]
  · intro sol hsol
    unfold reachabilitySolve at hsol
    by_cases h0 : prob.max_moves = 0
    · rw [if_pos h0] at hsol; exact Option.noConfusion hsol
    · rw [if_neg h0] at hsol
      cases b with
      | sat m =>
        have hsol2 : (match findEarliest (reachTarget m prob) 0 (prob.max_moves + 1) with
            | some k => some (⟨extractMoves m k, prob.piece_id, prob.target⟩ :
                ReachabilitySolution)
            | none => none) = some sol := hsol
        cases hk : findEarliest (reachTarget m prob) 0 (prob.max_moves + 1) with
        | some k =>
          rw [hk] at hsol2
          obtain rfl : (⟨extractMoves m k, prob.piece_id, prob.target⟩ :
              ReachabilitySolution) = sol := by injection hsol2
          obtain ⟨-, h2, h3, h4⟩ :=
            findEarliest_some_spec (reachTarget m prob) (prob.max_moves + 1) 0 k hk
          exact ⟨m, k, rfl, by omega, h3,
            fun j hj => h4 j (Nat.zero_le _) hj, rfl, by simp [extractMoves]⟩
        | none => rw [hk] at hsol2; exact Option.noConfusion hsol2
      | unsat => exact Option.noConfusion hsol
      | unknown => exact Option.noConfusion hsol

/-- Witness for C2: with a model of the one-move Chick advance, the
horizon-1 reachability problem for Sente's Chick to (3,2) returns a
solution. -/
theorem reachability_solve_spec_witness :
    ∃ sol, reachabilitySolve probR1 (CheckResult.sat A1) = some sol :=
  (reachability_solve_spec probR1 (CheckResult.sat A1) (by decide)
    (by
      intro m h
      injection h with h2
      subst h2
      exact ⟨by decide, 1, by decide, by decide⟩)).1 A1 rfl

/-- C3: in every model of the domain and movement constraints, a drop
move's destination square is occupied by no non-captured piece at the
time of the drop — dropping onto an occupied square, own- or
opponent-owned, is unsatisfiable. -/
theorem drop_destination_unoccupied (A : ZAssign) (N : Nat)
    (hdom : basicDomainOk A N) (hmov : movementOk A N) :
    ∀ t < N, A.move_is_drop t = true →
      ∀ q < N_PIECES, A.piece_captured t q = false →
        ¬(A.piece_row t q = A.move_to_row t ∧ A.piece_col t q = A.move_to_col t) := by
  rintro t ht hdrop q hq hqcap ⟨hrow, hcol⟩
  obtain ⟨-, -, hmoveDom⟩ := hdom
  obtain ⟨hid0, hid8⟩ := (hmoveDom t ht).1
  have hcast : ((A.move_piece_id t).toNat : Int) = A.move_piece_id t :=
    Int.toNat_of_nonneg hid0
  have hpj8 : (A.move_piece_id t).toNat < N_PIECES := by omega
  obtain ⟨-, hmt, -, hcapl⟩ := hmov
  obtain ⟨hcap, -, -, -, hcapm1, hsq⟩ :=
    (hmt t ht (A.move_piece_id t).toNat hpj8 hcast.symm).1 hdrop
  by_cases howner : A.piece_owner t q = ((t % 2 : Nat) : Int)
  · exact hsq q hq ⟨hqcap, hrow, hcol⟩ howner
  · have hqcand : captureCandidate A t q := by
      refine ⟨hqcap, ?_, hrow, hcol, howner⟩
      intro hqj
      have : q = (A.move_piece_id t).toNat := by omega
      rw [this, hcap] at hqcap
      exact Bool.noConfusion hqcap
    have hq7 := (hcapl t ht).1 q hq hqcand
    rw [hcapm1] at hq7
    omega

/-- Witness for C3: in the concrete drop model `A2`, Sente's on-board
Chick (id 3) is not on the drop destination (3,2). -/
theorem drop_destination_unoccupied_witness :
    ¬(A2.piece_row 0 3 = A2.move_to_row 0 ∧ A2.piece_col 0 3 = A2.move_to_col 0) :=
  drop_destination_unoccupied A2 1 (by decide) (by decide) 0 (by decide) (by decide)
    3 (by decide) (by decide)

/-- C4: in every model of the movement constraints, a piece named by
the `captures` field of a non-drop move acquires the captured-piece
effects at `t + 1` (captured, held and owned by the mover `P(t mod 2)`,
demoted, position copied), and a piece that is neither the mover nor
the captured piece has all six attributes copied from `t` to `t + 1`. -/
theorem capture_transfer_and_frame (A : ZAssign) (N : Nat)
    (hmov : movementOk A N) :
    ∀ t < N, ∀ r < N_PIECES,
      ((A.move_captures t = (r : Int) ∧ A.move_is_drop t = false) →
        capturedEffects A t r) ∧
      ((A.move_piece_id t ≠ (r : Int) ∧ A.move_captures t ≠ (r : Int)) →
        frameEffects A t r) := by
  intro t ht r hr
  obtain ⟨-, -, heff, hcapl⟩ := hmov
  constructor
  · rintro ⟨hcap, hdrop⟩
    have hne : A.move_piece_id t ≠ (r : Int) := by
      intro heq
      by_cases hex : ∃ q, q < N_PIECES ∧ captureCandidate A t q
      · obtain ⟨q, hq, hcand⟩ := hex
        have h1 := (hcapl t ht).1 q hq hcand
        have h2 := hcand.2.1
        rw [hcap] at h1
        rw [heq, ← h1] at h2
        exact h2 rfl
      · push_neg at hex
        have h1 := (hcapl t ht).2 (fun q hq => hex q hq)
        rw [hcap] at h1
        omega
    exact (heff t ht r hr).2.1 hne ⟨hcap, hdrop⟩
  · rintro ⟨hne, hnc⟩
    exact (heff t ht r hr).2.2 hne (fun hc => hnc hc.1)

/-- Witness for C4: in the concrete capture model `A1`, the captured
Gote Chick (id 7) acquires the captured-piece effects at `t = 1`. -/
theorem capture_transfer_and_frame_witness : capturedEffects A1 0 7 :=
  (capture_transfer_and_frame A1 1 (by decide) 0 (by decide) 7 (by decide)).1
    ⟨by decide, by decide⟩

/-- C5: in every model of the domain and movement constraints, the
moved piece's promotion flag at `t + 1` is forced to `true` when the
piece is a Chick whose destination row is its owner's far rank (row 4
for the first player, row 1 for the second), and is copied from `t`
otherwise. -/
theorem chick_promotion_forcing (A : ZAssign) (N : Nat)
    (hdom : basicDomainOk A N) (hmov : movementOk A N) :
    ∀ t < N, ∀ p < N_PIECES, A.move_piece_id t = (p : Int) →
      ((A.piece_type p = chickVal ∧
          A.move_to_row t = (if A.piece_owner t p = 0 then ROWS else 1)) →
        A.piece_promoted (t + 1) p = true) ∧
      (¬(A.piece_type p = chickVal ∧
          A.move_to_row t = (if A.piece_owner t p = 0 then ROWS else 1)) →
        A.piece_promoted (t + 1) p = A.piece_promoted t p) := by
  intro t ht p hp hid
  obtain ⟨-, -, -, -, -, hpro1, hpro2⟩ := (hmov.2.2.1 t ht p hp).1 hid
  have howner : A.piece_owner t p = 0 ∨ A.piece_owner t p = 1 := by
    have := (hdom.2.1 t (by omega) p hp).1
    omega
  constructor
  · rintro ⟨hchick, hrow⟩
    apply hpro1
    refine ⟨hchick, ?_⟩
    rcases howner with h0 | h1
    · rw [if_pos h0] at hrow
      exact Or.inl ⟨h0, hrow⟩
    · rw [if_neg (by omega)] at hrow
      exact Or.inr ⟨h1, hrow⟩
  · intro hnot
    apply hpro2
    rintro ⟨hchick, hdisj⟩
    apply hnot
    refine ⟨hchick, ?_⟩
    rcases hdisj with ⟨h0, hrow⟩ | ⟨h1, hrow⟩
    · rw [if_pos h0]; exact hrow
    · rw [if_neg (by omega)]; exact hrow

/-- Witness for C5: in the concrete model `A1`, the Chick moving to row
3 (not the far rank) keeps its promotion flag across `t = 0 → 1`. -/
theorem chick_promotion_forcing_witness :
    A1.piece_promoted 1 3 = A1.piece_promoted 0 3 :=
  (chick_promotion_forcing A1 1 (by decide) (by decide) 0 (by decide) 3 (by decide)
    (by decide)).2 (by decide)

/-- C6: in every model of the movement constraints whose pieces all
start on the board, a captured piece's owner equals its holder at every
time, so a Lion held by player `w` never satisfies the
opponent-Lion-captured disjunct of `w`'s victory predicate. -/
theorem captured_owner_is_holder (A : ZAssign) (N : Nat)
    (hmov : movementOk A N)
    (hinit : ∀ p < N_PIECES, A.piece_captured 0 p = false) :
    (∀ t ≤ N, ∀ p < N_PIECES, A.piece_captured t p = true →
      A.piece_owner t p = A.piece_in_hand_of t p) ∧
    (∀ t ≤ N, ∀ p < N_PIECES, ∀ w : Player,
      A.piece_in_hand_of t p = w.val →
      ¬(A.piece_type p = lionVal ∧ A.piece_owner t p ≠ w.val ∧
        A.piece_captured t p = true)) := by
  have main : ∀ t, t ≤ N → ∀ p < N_PIECES, A.piece_captured t p = true →
      A.piece_owner t p = A.piece_in_hand_of t p := by
    intro t
    induction t with
    | zero =>
      intro _ p hp hcap
      rw [hinit p hp] at hcap
      exact Bool.noConfusion hcap
    | succ k ih =>
      intro hk p hp hcap
      have hkN : k < N := by omega
      have heff := hmov.2.2.1 k hkN p hp
      by_cases hid : A.move_piece_id k = (p : Int)
      · have hfalse := (heff.1 hid).2.2.1
        rw [hfalse] at hcap
        exact Bool.noConfusion hcap
      · by_cases hc : A.move_captures k = (p : Int) ∧ A.move_is_drop k = false
        · obtain ⟨-, hhand, -, hown, -, -⟩ := heff.2.1 hid hc
          rw [hown, hhand]
        · obtain ⟨-, -, hcapeq, -, hhand, hown⟩ := heff.2.2 hid hc
          rw [hown, hhand]
          exact ih (by omega) p hp (hcapeq ▸ hcap)
  refine ⟨main, ?_⟩
  rintro t ht p hp w hhand ⟨-, hownne, hcap⟩
  exact hownne ((main t ht p hp hcap).trans hhand)

/-- Witness for C6: in the concrete capture model `A1`, the Chick
captured by Sente has owner equal to holder at `t = 1`. -/
theorem captured_owner_is_holder_witness :
    A1.piece_owner 1 7 = A1.piece_in_hand_of 1 7 :=
  (captured_owner_is_holder A1 1 (by decide) (by decide)).1 1 (by decide) 7
    (by decide) (by decide)

/-- C7 (code_bug evidence): an initial descriptor carrying the
off-board sentinel (`row < 1`, as in the repository's own tsume
examples with `row = -1`) makes the encoder's own constraints
unsatisfiable: `set_initial_position` pins `piece_row` at `t = 0` to
the sentinel while the domain constraints require `piece_row ≥ 1`.  The
specified in-hand pinning (`captured = true`, `holder = owner`) is
absent from the code, so no formula over such an input is satisfiable. -/
theorem inhand_descriptor_unsat (A : ZAssign) (N : Nat)
    (init : List PieceStateD) (ps : PieceStateD) (hmem : ps ∈ init)
    (hrow : ps.row < 1) (hp : ps.piece_id < N_PIECES) :
    ¬(basicDomainOk A N ∧ initialPositionOk A init) := by
  rintro ⟨⟨-, hdomS, -⟩, hinit⟩
  have h1 := (hdomS 0 (Nat.zero_le _) ps.piece_id hp).2.1.1
  have h2 := (hinit ps hmem).2.2.1
  omega

/-- Witness for C7: the in-hand Chick descriptor of
`examples.py example6_classic_tsume` (piece 7, `row = col = -1`) makes
the horizon-3 constraint system unsatisfiable for every assignment;
here instantiated at `A1`. -/
theorem inhand_descriptor_unsat_witness :
    ¬(basicDomainOk A1 3 ∧ initialPositionOk A1 tsumePositionD) :=
  inhand_descriptor_unsat A1 3 tsumePositionD ⟨7, chickVal, 0, -1, -1⟩
    (by decide) (by decide) (by decide)

/-- C8 (counterexample): the claim that the shortest-mate wrapper
searches every horizon up to the caller's cap fails: with cap 17 and a
driver whose backend is satisfiable exactly at horizon 17 (consistent
with the spec's monotonicity note, the shortest mate being 17), the
wrapper returns no solution even though a horizon `N ≤ cap` is
satisfiable, because `find_shortest_mate` caps its search at
`min(max_moves, 15)`. -/
theorem shortest_mate_cap_cex :
    findShortestMate mateAt17 17 Player.sente = none ∧ mateAt17 17 ≠ none := by
  constructor
  · rfl
  · have h17 : mateAt17 17 =
        some ⟨extractMoves A1 17, Player.sente, 17⟩ := rfl
    rw [h17]
    exact Option.some_ne_none _

/-- C8 (amended): `find_shortest_path` tries horizons `1..M` in order
and `find_shortest_mate` tries horizons of the winner's parity
(`(n - 1) % 2 = index(W)`) in increasing order up to `min(M, 15)`;
each wrapper returns the driver's solution for the smallest tried
satisfiable horizon and returns no solution exactly when every tried
horizon is unsatisfiable. -/
theorem shortest_wrappers_spec (solveR : Nat → Option ReachabilitySolution)
    (solveC : Nat → Option CheckmateSolution) (M : Nat) (w : Player) :
    (findShortestPath solveR M = none ↔ ∀ n, 1 ≤ n → n ≤ M → solveR n = none) ∧
    (∀ s, findShortestPath solveR M = some s →
      ∃ n, 1 ≤ n ∧ n ≤ M ∧ solveR n = some s ∧
        ∀ j, 1 ≤ j → j < n → solveR j = none) ∧
    (findShortestMate solveC M w = none ↔
      ∀ n, 1 ≤ n → n ≤ min M 15 → (n - 1) % 2 = w.idx → solveC n = none) ∧
    (∀ s, findShortestMate solveC M w = some s →
      ∃ n, 1 ≤ n ∧ n ≤ min M 15 ∧ (n - 1) % 2 = w.idx ∧ solveC n = some s ∧
        ∀ j, 1 ≤ j → j < n → (j - 1) % 2 = w.idx → solveC j = none) := by
  refine ⟨?_, ?_, ?_, ?_⟩
  · rw [show findShortestPath solveR M = findShortestPathLoop solveR 1 M from rfl,
      findShortestPathLoop_none_iff]
    constructor
    · intro h n h1 h2; exact h n h1 (by omega)
    · intro h n h1 h2; exact h n h1 (by omega)
  · intro s hs
    obtain ⟨n, h1, h2, h3, h4⟩ := findShortestPathLoop_some_spec solveR M 1 s hs
    exact ⟨n, h1, by omega, h3, h4⟩
  · cases w with
    | sente =>
      rw [show findShortestMate solveC M Player.sente
          = findShortestMateLoop solveC (min M 15) 1 (min M 15 + 1) from rfl,
        findShortestMateLoop_none_iff solveC (min M 15) (min M 15 + 1) 1 (by omega)]
      simp only [Player.idx]
      constructor
      · intro h n h1 h2 h3; exact h n (by omega) h2 (by omega)
      · intro h n h1 h2 h3; exact h n (by omega) h2 (by omega)
    | gote =>
      rw [show findShortestMate solveC M Player.gote
          = findShortestMateLoop solveC (min M 15) 2 (min M 15 + 1) from rfl,
        findShortestMateLoop_none_iff solveC (min M 15) (min M 15 + 1) 2 (by omega)]
      simp only [Player.idx]
      constructor
      · intro h n h1 h2 h3; exact h n (by omega) h2 (by omega)
      · intro h n h1 h2 h3; exact h n (by omega) h2 (by omega)
  · intro s hs
    cases w with
    | sente =>
      obtain ⟨n, h1, h2, h3, h4, h5⟩ :=
        findShortestMateLoop_some_spec solveC (min M 15) (min M 15 + 1) 1 s hs
      simp only [Player.idx]
      exact ⟨n, by omega, h2, by omega, h4,
        fun j hj1 hj2 hj3 => h5 j (by omega) hj2 (by omega)⟩
    | gote =>
      obtain ⟨n, h1, h2, h3, h4, h5⟩ :=
        findShortestMateLoop_some_spec solveC (min M 15) (min M 15 + 1) 2 s hs
      simp only [Player.idx]
      exact ⟨n, by omega, h2, by omega, h4,
        fun j hj1 hj2 hj3 => h5 j (by omega) hj2 (by omega)⟩

/-- Witness for C8 (amended): a driver that always fails makes the
shortest-path wrapper return no solution at cap 3. -/
theorem shortest_wrappers_spec_witness :
    findShortestPath (fun _ => none) 3 = none :=
  (shortest_wrappers_spec (fun _ => none) (fun _ => none) 3 Player.sente).1.mpr
    (fun _ _ _ => rfl)

/-- C9 (counterexample): at horizon 0 the reachability driver returns
no solution even though the target (Sente's Chick on (2,2)) is already
satisfied by the default initial position — witnessed by a model of
the horizon-0 base constraints — contradicting the claimed `N = 0`
acceptance; the guard `max_moves <= 0` rejects before any encoding. -/
theorem zero_horizon_reachability_cex :
    reachTarget A1 probR0 0 = true ∧
    baseConstraintsOk A1 0 defaultSetupD ∧
    reachabilitySolve probR0 (CheckResult.sat A1) = none :=
  ⟨by decide, by decide, rfl⟩

/-- C9 (amended): at horizon 0 all three drivers return no solution
immediately, regardless of the backend's answer and of the initial
position. -/
theorem zero_horizon_all_reject (rp : ReachabilityProblem)
    (cp : CheckmateProblem) (tp : TsumeProblem)
    (b1 b2 b3 : CheckResult) (h1 : rp.max_moves = 0) (h2 : cp.max_moves = 0)
    (h3 : tp.max_moves = 0) :
    reachabilitySolve rp b1 = none ∧ checkmateSolve cp b2 = none ∧
      tsumeSolve tp b3 = none := by
  refine ⟨?_, ?_, ?_⟩
  · unfold reachabilitySolve; rw [if_pos h1]
  · unfold checkmateSolve; rw [if_pos h2]
  · unfold tsumeSolve; rw [if_pos h3]

/-- Witness for C9 (amended): the three horizon-0 sample problems are
all rejected. -/
theorem zero_horizon_all_reject_witness :
    reachabilitySolve probR0 CheckResult.unsat = none ∧
    checkmateSolve ⟨defaultSetupD, Player.sente, 0⟩ CheckResult.unsat = none ∧
    tsumeSolve ⟨defaultSetupD, [], 0⟩ CheckResult.unsat = none :=
  zero_horizon_all_reject probR0 ⟨defaultSetupD, Player.sente, 0⟩
    ⟨defaultSetupD, [], 0⟩ CheckResult.unsat CheckResult.unsat CheckResult.unsat
    rfl rfl rfl

/-- C10 (counterexample): an `unknown` backend answer produces exactly
the same result as `unsat` — the plain "no solution" value `none` — in
all three drivers; no distinct error kind exists in the return type. -/
theorem unknown_same_as_unsat_cex :
    checkmateSolve probC1 CheckResult.unknown = checkmateSolve probC1 CheckResult.unsat ∧
    checkmateSolve probC1 CheckResult.unknown = none ∧
    reachabilitySolve probR1 CheckResult.unknown = reachabilitySolve probR1 CheckResult.unsat ∧
    reachabilitySolve probR1 CheckResult.unknown = none ∧
    tsumeSolve probT1 CheckResult.unknown = tsumeSolve probT1 CheckResult.unsat ∧
    tsumeSolve probT1 CheckResult.unknown = none :=
  ⟨rfl, rfl, rfl, rfl, rfl, rfl⟩

/-- C10 (amended): for every backend answer other than `sat`, each
driver returns the same "no solution" value `none` that it returns on
unsatisfiability; backend failure is not surfaced as a distinct error
kind. -/
theorem nonsat_backend_none (rp : ReachabilityProblem) (cp : CheckmateProblem)
    (tp : TsumeProblem) (b : CheckResult) (hb : ∀ m, b ≠ CheckResult.sat m) :
    reachabilitySolve rp b = none ∧ checkmateSolve cp b = none ∧
      tsumeSolve tp b = none := by
  cases b with
  | sat m => exact absurd rfl (hb m)
  | unsat =>
    refine ⟨?_, ?_, ?_⟩
    · unfold reachabilitySolve
      by_cases h : rp.max_moves = 0
      · rw [if_pos h]
      · rw [if_neg h]
    · unfold checkmateSolve
      by_cases h : cp.max_moves = 0
      · rw [if_pos h]
      · rw [if_neg h]
        by_cases hq : (cp.max_moves - 1) % 2 ≠ cp.winning_player.idx
        · rw [if_pos hq]
        · rw [if_neg hq]
    · unfold tsumeSolve
      by_cases h : tp.max_moves = 0
      · rw [if_pos h]
      · rw [if_neg h]
  | unknown =>
    refine ⟨?_, ?_, ?_⟩
    · unfold reachabilitySolve
      by_cases h : rp.max_moves = 0
      · rw [if_pos h]
      · rw [if_neg h]
    · unfold checkmateSolve
      by_cases h : cp.max_moves = 0
      · rw [if_pos h]
      · rw [if_neg h]
        by_cases hq : (cp.max_moves - 1) % 2 ≠ cp.winning_player.idx
        · rw [if_pos hq]
        · rw [if_neg hq]
    · unfold tsumeSolve
      by_cases h : tp.max_moves = 0
      · rw [if_pos h]
      · rw [if_neg h]

/-- Witness for C10 (amended): the `unknown` answer on the three sample
problems yields `none` in all drivers. -/
theorem nonsat_backend_none_witness :
    reachabilitySolve probR1 CheckResult.unknown = none ∧
    checkmateSolve probC1 CheckResult.unknown = none ∧
    tsumeSolve probT1 CheckResult.unknown = none :=
  nonsat_backend_none probR1 probC1 probT1 CheckResult.unknown
    (fun _ h => nomatch h)

end DobutsuShogi
